import Mathlib

/-!
Shallow embedding of `examples/data-mining/docker-images/collector/app/main.py`
from the eliasdb repository.

The program is a scheduled network probe: `job()` captures a Unix timestamp,
issues an HTTP GET to a fixed target URL, builds a result dictionary
(success path or failure path), and POSTs the JSON serialization of a
single-element array holding that dictionary to a fixed store endpoint.
The `__main__` part registers `job` with the `schedule` library at a
5-second cadence and loops `schedule.run_pending(); time.sleep(1)` forever.

External effects (the wall clock, the GET, the POST) are modelled by a
per-tick environment `TickEnv` recording the outcome each effect would
produce; `job` is then a pure function from that environment to a trace of
observable events, the list of constructed records, and a normal-return or
raised-exception outcome.  Python exceptions are values of `PyExc` carrying
their `str(e)` rendering.  `print` calls become structured log events
carrying their dynamic arguments.
-/

/-- A Python exception, identified by its textual rendering `str(e)`. -/
structure PyExc where
  msg : String
deriving DecidableEq, Repr

/-- An HTTP response as seen by the `requests` library: a status code and a
body text (`r.status_code` and `r.text`). -/
structure HttpResponse where
  status : Nat
  text : String
deriving DecidableEq, Repr

/-- Environment of one invocation of `job()`: the outcome of each external
effect the code performs, in program order.  `timeRes` is the outcome of
`int(time.time())` (line 28); `getRes` is the outcome of
`requests.get(url)` together with `r.elapsed` (a non-negative duration in
microseconds, since `requests` reports a `timedelta`); `postRes` is the
outcome of `requests.post(...)`. -/
structure TickEnv where
  timeRes : Except PyExc Nat
  getRes : Except PyExc Nat
  postRes : Except PyExc HttpResponse

/-- The probe record built by `job()` (the Python dict literal of lines
37-43 and 48-54): insertion-ordered fields key, kind, url, success,
result. -/
structure ProbeRecord where
  key : String
  kind : String
  url : String
  success : Bool
  result : String
deriving DecidableEq, Repr

/-- Observable events of one `job()` invocation.  Each `print` call is a
log event carrying its dynamic arguments; each network call is an event
carrying its arguments. -/
inductive Event where
  | logRunning (url : String) (now : Nat)
  | httpGet (url : String)
  | logElapsed (url : String) (elapsedMicros : Nat)
  | logError (msg : String)
  | httpPost (url : String) (body : String)
  | logStoreReject (body : String)
  | logStoreError (msg : String)
deriving DecidableEq, Repr

/-- Result of running `job()` once: the events it emitted, the probe
records it finished constructing, and whether it returned normally or
raised. -/
structure JobTrace where
  events : List Event
  records : List ProbeRecord
  outcome : Except PyExc Unit
deriving Repr

/-- The store host constant `ELIASDB_URL = "eliasdb1:9090"` (line 17). -/
def ELIASDB_URL : String := "eliasdb1:9090"

/-- The probe target `url = "https://devt.de"` (line 24). -/
def targetUrl : String := "https://devt.de"

/-- The store endpoint built on line 57:
`'https://%s/db/v1/graph/main/n' % ELIASDB_URL`. -/
def storeUrl : String := "https://" ++ ELIASDB_URL ++ "/db/v1/graph/main/n"

/-- Left-pad with a zero to two digits: Python `"%02d" % n` for `n ≥ 0`. -/
def pad2 (n : Nat) : String :=
  if n < 10 then "0" ++ toString n else toString n

/-- Left-pad with zeros to six digits: Python `"%06d" % n` for `n ≥ 0`. -/
def pad6 (n : Nat) : String :=
  let s := toString n
  String.mk (List.replicate (6 - s.length) (Char.ofNat 48)) ++ s

/-- The `H:MM:SS` core of Python `datetime.timedelta.__str__`. -/
def hmsStr (hh mm ss : Nat) : String :=
  toString hh ++ ":" ++ pad2 mm ++ ":" ++ pad2 ss

/-- Python `str(timedelta)` for a non-negative duration given in
microseconds: `[D day(s), ]H:MM:SS[.ffffff]`, mirroring
`datetime.timedelta.__str__` (this renders `str(r.elapsed)` on line 42). -/
def timedeltaStr (micros : Nat) : String :=
  let us := micros % 1000000
  let totalSecs := micros / 1000000
  let days := totalSecs / 86400
  let secs := totalSecs % 86400
  let core := hmsStr (secs / 3600) ((secs % 3600) / 60) (secs % 60)
  let withDays :=
    if days = 0 then core
    else toString days ++ (if days = 1 then " day, " else " days, ") ++ core
  if us = 0 then withDays else withDays ++ "." ++ pad6 us

/-- Hexadecimal digit, lowercase, as produced by Python json escapes. -/
def toHexDigit (n : Nat) : Char :=
  if n < 10 then Char.ofNat (48 + n) else Char.ofNat (87 + n)

/-- Four lowercase hex digits, as in a Python json `\uXXXX` escape. -/
def hex4 (n : Nat) : String :=
  String.mk [toHexDigit (n / 4096 % 16), toHexDigit (n / 256 % 16),
    toHexDigit (n / 16 % 16), toHexDigit (n % 16)]

/-- Escape one character the way Python `json.dumps` (default
`ensure_ascii=True`) does: `\"` and `\\` shortcuts, printable ASCII
passed through, the C0 shortcuts `\b \t \n \f \r`, `\uXXXX` otherwise,
with surrogate pairs above the BMP. -/
def jsonEscapeChar (c : Char) : String :=
  if c = Char.ofNat 34 then "\\\""
  else if c = Char.ofNat 92 then "\\\\"
  else if 32 ≤ c.toNat ∧ c.toNat ≤ 126 then String.mk [c]
  else if c = Char.ofNat 8 then "\\b"
  else if c = Char.ofNat 9 then "\\t"
  else if c = Char.ofNat 10 then "\\n"
  else if c = Char.ofNat 12 then "\\f"
  else if c = Char.ofNat 13 then "\\r"
  else if c.toNat < 65536 then "\\u" ++ hex4 c.toNat
  else
    let v := c.toNat - 65536
    "\\u" ++ hex4 (55296 + v / 1024) ++ "\\u" ++ hex4 (56320 + v % 1024)

/-- Python `json.dumps` escaping of a whole string (without the quotes). -/
def jsonEscape (s : String) : String :=
  String.join (s.toList.map jsonEscapeChar)

/-- A JSON string literal as `json.dumps` renders it. -/
def jsonStr (s : String) : String :=
  "\"" ++ jsonEscape s ++ "\""

/-- JSON rendering of a Python bool. -/
def jsonBool (b : Bool) : String :=
  if b then "true" else "false"

/-- The body built on line 58: `json.dumps([result])` for the probe
record dict, with Python dict insertion order and the default
`(", ", ": ")` separators. -/
def jsonDumpsSingle (r : ProbeRecord) : String :=
  "[\x7b\"key\": " ++ jsonStr r.key ++ ", \"kind\": " ++ jsonStr r.kind ++
    ", \"url\": " ++ jsonStr r.url ++ ", \"success\": " ++ jsonBool r.success ++
    ", \"result\": " ++ jsonStr r.result ++ "\x7d]"

/-- The exception Python raises when the `except` handler of lines 45-54
evaluates `str(now)` while `now` was never bound (the first statement of
the `try` block raised): an `UnboundLocalError` for the local `now`. -/
def unboundLocalExc : PyExc :=
  ⟨"UnboundLocalError: local variable 'now' referenced before assignment"⟩

/-- Shallow embedding of `job()` (lines 21-64).  Control flow mirrors the
Python: the first `try` captures the timestamp, logs, performs the GET and
builds `result` in the success path, or builds the failure-path `result`
in the `except` handler; the second `try` POSTs `json.dumps([result])` to
the store, logging a non-200 response body or a raised transport error.
If the timestamp capture itself raises, the handler logs the error and
then raises `UnboundLocalError` at `str(now)`, which escapes `job`. -/
def job (env : TickEnv) : JobTrace :=
  match env.timeRes with
  | .error e =>
    { events := [.logError e.msg]
      records := []
      outcome := .error unboundLocalExc }
  | .ok now =>
    let result : ProbeRecord :=
      match env.getRes with
      | .ok elapsed =>
        { key := toString now, kind := "PingResult", url := targetUrl,
          success := true, result := timedeltaStr elapsed }
      | .error e =>
        { key := toString now, kind := "PingResult", url := targetUrl,
          success := false, result := e.msg }
    let probeEvents : List Event :=
      match env.getRes with
      | .ok elapsed =>
        [.logRunning targetUrl now, .httpGet targetUrl, .logElapsed targetUrl elapsed]
      | .error e =>
        [.logRunning targetUrl now, .httpGet targetUrl, .logError e.msg]
    let postEvents : List Event :=
      match env.postRes with
      | .ok r =>
        .httpPost storeUrl (jsonDumpsSingle result) ::
          (if r.status ≠ 200 then [.logStoreReject r.text] else [])
      | .error e =>
        [.httpPost storeUrl (jsonDumpsSingle result), .logStoreError e.msg]
    { events := probeEvents ++ postEvents
      records := [result]
      outcome := .ok () }

/-- The POST attempts among a list of events, with their url and body. -/
def postCalls (evs : List Event) : List (String × String) :=
  evs.filterMap fun e =>
    match e with
    | .httpPost u b => some (u, b)
    | _ => none

/-- Events of the scheduling loop trace, tagged with the index of the tick
they belong to. -/
inductive TickEvent where
  | tickStart (n : Nat)
  | act (n : Nat) (e : Event)
  | tickEnd (n : Nat)
deriving DecidableEq, Repr

/-- The tick a trace event belongs to. -/
def tickOf : TickEvent → Nat
  | .tickStart n => n
  | .act n _ => n
  | .tickEnd n => n

/-- The block of trace events one invocation of the task contributes:
a start marker, the invocation events, and (only when the invocation
returned normally) an end marker. -/
def tickBlock (n : Nat) (t : JobTrace) : List TickEvent :=
  .tickStart n ::
    (t.events.map (.act n ·) ++
      match t.outcome with
      | .ok _ => [.tickEnd n]
      | .error _ => [])

/-- Embedding of the `while True: schedule.run_pending(); time.sleep(1)`
loop (lines 69-71) with `job` registered via `schedule.every(5).seconds`
(line 67), observed for the first `k` fired ticks.  The loop is a single
thread that runs each due invocation of `job` to completion before
sleeping again, so the trace is the concatenation of the tick blocks in
order.  The `schedule` library does not catch exceptions raised by the
job, and the `while` loop has no handler, so an invocation that raises
terminates the loop: no further tick fires. -/
def runLoopFrom (envs : Nat → TickEnv) (s : Nat) : Nat → List TickEvent
  | 0 => []
  | k + 1 =>
    let t := job (envs s)
    match t.outcome with
    | .ok _ => tickBlock s t ++ runLoopFrom envs (s + 1) k
    | .error _ => tickBlock s t

/-- The scheduler loop trace for the first `k` fired ticks, each tick `n`
running in environment `envs n`. -/
def runLoop (envs : Nat → TickEnv) (k : Nat) : List TickEvent :=
  runLoopFrom envs 0 k

/-! Concrete environments used by witnesses and counterexamples. -/

/-- A fully successful tick: timestamp 100, GET succeeded in 123456 us,
store answered 200. -/
def envOk : TickEnv := ⟨.ok 100, .ok 123456, .ok ⟨200, ""⟩⟩

/-- A tick whose GET and POST both raise. -/
def envErr : TickEnv := ⟨.ok 7, .error ⟨"boom"⟩, .error ⟨"down"⟩⟩

/-- A tick whose initial `int(time.time())` raises. -/
def envClock : TickEnv := ⟨.error ⟨"clock fault"⟩, .ok 0, .ok ⟨200, ""⟩⟩

/-- A tick whose store response has the 2xx success status 201. -/
def env201 : TickEnv := ⟨.ok 50, .ok 1000, .ok ⟨201, "resp-body"⟩⟩

/-- A tick whose store response is a 500 with body "oops". -/
def env500 : TickEnv := ⟨.ok 50, .ok 1000, .ok ⟨500, "oops"⟩⟩

/-- A tick whose GET raises an exception with empty text. -/
def envEmptyErr : TickEnv := ⟨.ok 9, .error ⟨""⟩, .ok ⟨200, ""⟩⟩

/-- C1: whenever the timestamp capture succeeds (so the exceptions under
consideration are those of the GET, the record construction, and the
POST), `job` returns normally, and a raised GET or POST exception is
logged. -/
theorem job_isolates_probe_and_post_errors (env : TickEnv) (now : Nat)
    (h : env.timeRes = .ok now) :
    (job env).outcome = .ok () ∧
      (∀ e, env.getRes = .error e → Event.logError e.msg ∈ (job env).events) ∧
      (∀ e, env.postRes = .error e → Event.logStoreError e.msg ∈ (job env).events) := by
  obtain ⟨t, g, p⟩ := env
  simp only at h
  subst h
  cases g <;> cases p <;>
    simp [job]

/-- C1 witness: at a tick where both the GET and the POST raise, `job`
returns normally and logs both errors. -/
theorem job_isolates_probe_and_post_errors_witness :
    (job envErr).outcome = .ok () ∧
      Event.logError "boom" ∈ (job envErr).events ∧
      Event.logStoreError "down" ∈ (job envErr).events :=
  ⟨(job_isolates_probe_and_post_errors envErr 7 rfl).1,
    (job_isolates_probe_and_post_errors envErr 7 rfl).2.1 ⟨"boom"⟩ rfl,
    (job_isolates_probe_and_post_errors envErr 7 rfl).2.2 ⟨"down"⟩ rfl⟩

/-- C3: whenever the timestamp capture yields `now`, every record `job`
constructs — on the success path and on the failure path alike — has key
`str(now)`. -/
theorem record_key_is_start_timestamp (env : TickEnv) (now : Nat)
    (h : env.timeRes = .ok now) :
    ∀ rec ∈ (job env).records, rec.key = toString now := by
  obtain ⟨t, g, p⟩ := env
  simp only at h
  subst h
  cases g <;> cases p <;>
    simp [job]

/-- C3 witness: at a concrete successful tick the constructed record has
key `toString 100`. -/
theorem record_key_is_start_timestamp_witness :
    ({ key := "100", kind := "PingResult", url := "https://devt.de",
       success := true, result := timedeltaStr 123456 } : ProbeRecord).key
      = toString 100 :=
  record_key_is_start_timestamp envOk 100 rfl _ (by decide)

/-- C4: whenever the timestamp capture succeeds, `job` makes exactly one
POST, its url is the fixed store endpoint, and its body is
`json.dumps` of the single-element array holding the tick's one record. -/
theorem submission_is_single_record_post (env : TickEnv) (now : Nat)
    (h : env.timeRes = .ok now) :
    ∃ rec, (job env).records = [rec] ∧
      postCalls (job env).events = [(storeUrl, jsonDumpsSingle rec)] := by
  obtain ⟨t, g, p⟩ := env
  simp only at h
  subst h
  cases g <;> cases p with
  | ok r => simp only [job, postCalls, List.filterMap]; split <;> simp [postCalls]
  | error e => simp [job, postCalls]

/-- C4 witness: the concrete successful tick POSTs the serialized
single-record array to the store endpoint. -/
theorem submission_is_single_record_post_witness :
    ∃ rec, (job envOk).records = [rec] ∧
      postCalls (job envOk).events = [(storeUrl, jsonDumpsSingle rec)] :=
  submission_is_single_record_post envOk 100 rfl

/-- C5 counterexample: on store status 201 — a 2xx success status — the
code still logs the response body, because it compares against 200 only;
the claim says a 2xx response body is not logged. -/
theorem post_2xx_body_still_logged :
    (200 ≤ 201 ∧ 201 < 300) ∧
      Event.logStoreReject "resp-body" ∈ (job env201).events := by
  constructor
  · omega
  · decide

/-- C5 amended: for a tick whose POST completes with a response, the body
is logged exactly when the status differs from 200 (not: from every 2xx
status), there is exactly one POST attempt, and `job` returns normally. -/
theorem post_response_logging_iff_not_200 (env : TickEnv) (now st : Nat)
    (txt : String) (h : env.timeRes = .ok now)
    (hp : env.postRes = .ok ⟨st, txt⟩) :
    ((Event.logStoreReject txt ∈ (job env).events) ↔ st ≠ 200) ∧
      (postCalls (job env).events).length = 1 ∧
      (job env).outcome = .ok () := by
  obtain ⟨t, g, p⟩ := env
  simp only at h hp
  subst h
  subst hp
  cases g <;> simp only [job, postCalls, List.filterMap] <;>
    split <;> simp_all [postCalls]

/-- C5 amended witness: at a concrete tick with store status 500 and
body "oops" the body is logged, one POST was made, and `job` returned
normally. -/
theorem post_response_logging_iff_not_200_witness :
    ((Event.logStoreReject "oops" ∈ (job env500).events) ↔ (500 : Nat) ≠ 200) ∧
      (postCalls (job env500).events).length = 1 ∧
      (job env500).outcome = .ok () :=
  post_response_logging_iff_not_200 env500 50 500 "oops" rfl rfl

/-- C6 counterexample: a GET failure whose exception renders to the empty
string yields a record whose result field is empty, not non-empty error
text. -/
theorem get_failure_empty_error_text :
    (job envEmptyErr).records =
      [{ key := "9", kind := "PingResult", url := "https://devt.de",
         success := false, result := "" }] ∧
      "".length = 0 := by
  constructor
  · decide
  · rfl

/-- C6 amended: when the timestamp capture succeeded and the GET raised,
the tick's one record has `success = false` and its result field is
exactly the exception's textual rendering `str(e)` — non-empty precisely
when that rendering is — and `job` returns normally. -/
theorem get_failure_record (env : TickEnv) (now : Nat) (e : PyExc)
    (h : env.timeRes = .ok now) (hg : env.getRes = .error e) :
    (job env).records =
      [{ key := toString now, kind := "PingResult", url := targetUrl,
         success := false, result := e.msg }] ∧
      (job env).outcome = .ok () := by
  obtain ⟨t, g, p⟩ := env
  simp only at h hg
  subst h
  subst hg
  cases p <;> simp [job]

/-- C6 amended witness: at a concrete tick whose GET raises with text
"boom", the record is the failure record carrying "boom" and `job`
returns normally. -/
theorem get_failure_record_witness :
    (job envErr).records =
      [{ key := toString 7, kind := "PingResult", url := targetUrl,
         success := false, result := "boom" }] ∧
      (job envErr).outcome = .ok () :=
  get_failure_record envErr 7 ⟨"boom"⟩ rfl rfl

/-- The `H:MM:SS` core of a timedelta rendering is never empty. -/
theorem hmsStr_length_pos (hh mm ss : Nat) : 0 < (hmsStr hh mm ss).length := by
  simp only [hmsStr, String.length_append]
  have h1 : (":" : String).length = 1 := rfl
  simp only [h1]
  omega

/-- Python `str(timedelta)` is never the empty string. -/
theorem timedeltaStr_length_pos (micros : Nat) : 0 < (timedeltaStr micros).length := by
  have h1 := hmsStr_length_pos (micros / 1000000 % 86400 / 3600)
    (micros / 1000000 % 86400 % 3600 / 60) (micros / 1000000 % 86400 % 60)
  simp only [timedeltaStr]
  split <;> split <;> (try simp only [String.length_append]) <;> omega

/-- C7: whenever the timestamp capture yields `now` and the GET succeeds
with elapsed duration `elapsed` (microseconds, non-negative since it is a
`Nat`), the tick's one record has `success = true` and its result is the
non-empty `str(timedelta)` rendering of that duration; `job` returns
normally. -/
theorem get_success_record (env : TickEnv) (now elapsed : Nat)
    (h : env.timeRes = .ok now) (hg : env.getRes = .ok elapsed) :
    (job env).records =
      [{ key := toString now, kind := "PingResult", url := targetUrl,
         success := true, result := timedeltaStr elapsed }] ∧
      0 < (timedeltaStr elapsed).length ∧
      (job env).outcome = .ok () := by
  obtain ⟨t, g, p⟩ := env
  simp only at h hg
  subst h
  subst hg
  refine ⟨?_, timedeltaStr_length_pos elapsed, ?_⟩ <;> cases p <;> simp [job]

/-- C7 witness: the concrete successful tick yields the success record
with the rendered elapsed time, which is non-empty. -/
theorem get_success_record_witness :
    (job envOk).records =
      [{ key := toString 100, kind := "PingResult", url := targetUrl,
         success := true, result := timedeltaStr 123456 }] ∧
      0 < (timedeltaStr 123456).length ∧
      (job envOk).outcome = .ok () :=
  get_success_record envOk 100 123456 rfl rfl

/-- C8 counterexample: at a tick whose initial `int(time.time())` raises,
no record at all is constructed, contradicting "exactly one record per
tick". -/
theorem tick_without_record :
    (job envClock).records.length = 0 ∧ ¬ (job envClock).records.length = 1 := by
  decide

/-- C8 amended: every tick constructs at most one record and makes at
most one POST; when the initial timestamp capture succeeds, it constructs
exactly one record (the success and failure paths are mutually exclusive)
and makes exactly one POST. -/
theorem job_record_and_post_counts (env : TickEnv) :
    (job env).records.length ≤ 1 ∧ (postCalls (job env).events).length ≤ 1 ∧
      (∀ now, env.timeRes = .ok now →
        (job env).records.length = 1 ∧ (postCalls (job env).events).length = 1) := by
  obtain ⟨t, g, p⟩ := env
  cases t with
  | error e => simp [job, postCalls]
  | ok now =>
    cases g <;> cases p with
    | ok r =>
      simp only [job, postCalls, List.filterMap]
      split <;> simp [postCalls]
    | error e => simp [job, postCalls]

/-- C8 amended witness: the concrete successful tick has exactly one
record and one POST. -/
theorem job_record_and_post_counts_witness :
    (job envOk).records.length = 1 ∧ (postCalls (job envOk).events).length = 1 :=
  (job_record_and_post_counts envOk).2.2 100 rfl

/-- C10: if the first statement of the try block — the timestamp capture —
raises, the except handler logs the error but then itself raises
`UnboundLocalError` at `str(now)`, which escapes `job` with no record
constructed; if the capture succeeds, `job` returns normally even when
the GET fails. -/
theorem failure_handler_requires_bound_timestamp (env : TickEnv) :
    (∀ e, env.timeRes = .error e →
      (job env).outcome = .error unboundLocalExc ∧ (job env).records = [] ∧
        Event.logError e.msg ∈ (job env).events) ∧
      (∀ now, env.timeRes = .ok now → (job env).outcome = .ok ()) := by
  obtain ⟨t, g, p⟩ := env
  constructor
  · intro e he
    simp only at he
    subst he
    simp [job]
  · intro now hn
    simp only at hn
    subst hn
    cases g <;> cases p <;> simp [job]

/-- C10 witness: at a tick whose clock read raises, `job` raises
`UnboundLocalError` and constructs no record. -/
theorem failure_handler_requires_bound_timestamp_witness :
    (job envClock).outcome = .error unboundLocalExc ∧
      (job envClock).records = [] ∧
      Event.logError "clock fault" ∈ (job envClock).events :=
  (failure_handler_requires_bound_timestamp envClock).1 ⟨"clock fault"⟩ rfl

/-- Every trace event of a tick block carries that tick's index. -/
theorem tickOf_of_mem_tickBlock {n : Nat} {t : JobTrace} {e : TickEvent}
    (h : e ∈ tickBlock n t) : tickOf e = n := by
  unfold tickBlock at h
  rcases List.mem_cons.mp h with rfl | h2
  · rfl
  rcases List.mem_append.mp h2 with h3 | h4
  · obtain ⟨a, -, rfl⟩ := List.mem_map.mp h3
    rfl
  · split at h4
    · rw [List.mem_singleton.mp h4]
      rfl
    · simp at h4

/-- Trace events of the loop started at tick `s` belong to tick `s` or a
later one. -/
theorem le_tickOf_of_mem_runLoopFrom (envs : Nat → TickEnv) :
    ∀ (k s : Nat) (e : TickEvent), e ∈ runLoopFrom envs s k → s ≤ tickOf e := by
  intro k
  induction k with
  | zero =>
    intro s e h
    simp [runLoopFrom] at h
  | succ k ih =>
    intro s e h
    simp only [runLoopFrom] at h
    split at h
    · rcases List.mem_append.mp h with h1 | h2
      · exact (tickOf_of_mem_tickBlock h1).symm.le
      · exact Nat.le_of_succ_le (ih (s + 1) e h2)
    · exact (tickOf_of_mem_tickBlock h).symm.le

/-- The loop trace is sorted by tick index: the single thread finishes
each invocation before the next tick fires. -/
theorem runLoopFrom_pairwise (envs : Nat → TickEnv) :
    ∀ (k s : Nat),
      (runLoopFrom envs s k).Pairwise (fun a b => tickOf a ≤ tickOf b) := by
  intro k
  induction k with
  | zero =>
    intro s
    simp [runLoopFrom]
  | succ k ih =>
    intro s
    simp only [runLoopFrom]
    split
    · refine List.pairwise_append.mpr ⟨?_, ih (s + 1), ?_⟩
      · exact List.pairwise_of_forall_mem_list fun a ha b hb => by
          rw [tickOf_of_mem_tickBlock ha, tickOf_of_mem_tickBlock hb]
      · intro a ha b hb
        rw [tickOf_of_mem_tickBlock ha]
        exact Nat.le_of_succ_le (le_tickOf_of_mem_runLoopFrom envs k (s + 1) b hb)
    · exact List.pairwise_of_forall_mem_list fun a ha b hb => by
        rw [tickOf_of_mem_tickBlock ha, tickOf_of_mem_tickBlock hb]

/-- C2: in the scheduler loop trace, the GET of tick `n + 1` occurs
strictly after tick `n` has completed (its POST and failure handling
included): the single-threaded loop alternates between waiting and
running the task to completion, so invocations never overlap. -/
theorem scheduler_no_overlap (envs : Nat → TickEnv) (k n : Nat) (u : String)
    (i j : Nat) (hi : i < (runLoop envs k).length)
    (hj : j < (runLoop envs k).length)
    (hget : (runLoop envs k).get ⟨i, hi⟩ = .act (n + 1) (.httpGet u))
    (hend : (runLoop envs k).get ⟨j, hj⟩ = .tickEnd n) :
    j < i := by
  have hsorted : (runLoop envs k).Pairwise (fun a b => tickOf a ≤ tickOf b) :=
    runLoopFrom_pairwise envs k 0
  by_contra hij
  have hij2 : i ≤ j := Nat.le_of_not_lt hij
  rcases Nat.eq_or_lt_of_le hij2 with rfl | hlt
  · have h2 : (runLoop envs k).get ⟨i, hi⟩ = .tickEnd n := by
      rw [show (⟨i, hi⟩ : Fin (runLoop envs k).length) = ⟨i, hj⟩ from rfl]
      exact hend
    rw [hget] at h2
    exact absurd h2 (by simp)
  · have hp := List.pairwise_iff_get.mp hsorted ⟨i, hi⟩ ⟨j, hj⟩ hlt
    rw [hget, hend] at hp
    simp [tickOf] at hp

/-- The all-successful environment family used by loop witnesses. -/
def envsOkAll : Nat → TickEnv := fun _ => envOk

/-- C2 witness: in the concrete two-tick trace, tick 1's GET sits at
index 8, tick 0's end marker at index 5, and 5 < 8. -/
theorem scheduler_no_overlap_witness :
    (runLoop envsOkAll 2).get ⟨8, by decide⟩ = .act 1 (.httpGet targetUrl) ∧
      (runLoop envsOkAll 2).get ⟨5, by decide⟩ = .tickEnd 0 ∧ (5 : Nat) < 8 :=
  ⟨by decide, by decide,
    scheduler_no_overlap envsOkAll 2 0 targetUrl 8 5 (by decide) (by decide)
      (by decide) (by decide)⟩

/-- Environment family whose first tick raises before `now` is bound and
whose later ticks would all succeed. -/
def envsCrashFirst : Nat → TickEnv := fun n => if n = 0 then envClock else envOk

/-- C9 counterexample: when the task invocation of tick 0 raises (the
exception escapes `job`), the bare `while True` loop has no handler and
`schedule.run_pending()` does not catch, so the loop dies: tick 1 never
starts even with five loop iterations available. -/
theorem crash_stops_scheduler :
    (job (envsCrashFirst 0)).outcome = .error unboundLocalExc ∧
      TickEvent.tickStart 1 ∉ runLoop envsCrashFirst 5 := by
  constructor
  · rfl
  · decide

/-- C9 amended helper: if every invocation before tick `n` returned
normally, tick `n` still fires in a loop run long enough. -/
theorem scheduler_reaches_tick (envs : Nat → TickEnv) :
    ∀ (n s k : Nat), n < k →
      (∀ m, m < n → (job (envs (s + m))).outcome = .ok ()) →
      TickEvent.tickStart (s + n) ∈ runLoopFrom envs s k := by
  intro n
  induction n with
  | zero =>
    intro s k hk _
    cases k with
    | zero => omega
    | succ k =>
      simp only [runLoopFrom]
      split <;> simp [tickBlock]
  | succ n ih =>
    intro s k hk hok
    cases k with
    | zero => omega
    | succ k =>
      have h0 : (job (envs s)).outcome = .ok () := by
        have h1 := hok 0 (Nat.succ_pos n)
        simpa using h1
      simp only [runLoopFrom]
      split
      · apply List.mem_append_right
        rw [show s + (n + 1) = (s + 1) + n by omega]
        refine ih (s + 1) k (Nat.lt_of_succ_lt_succ hk) fun m hm => ?_
        rw [show (s + 1) + m = s + (m + 1) by omega]
        exact hok (m + 1) (Nat.succ_lt_succ hm)
      · rename_i heq
        rw [h0] at heq
        cases heq

/-- C9 amended: the scheduling loop keeps firing ticks as long as each
task invocation returns normally — in the reference code the isolation
the Scheduler enjoys is the one the Prober provides by catching its own
errors, not a guard in the loop: if every invocation before tick `n`
returned normally, tick `n` fires in any loop run of more than `n`
ticks. -/
theorem scheduler_fires_future_ticks (envs : Nat → TickEnv) (n k : Nat)
    (hk : n < k)
    (hok : ∀ m, m < n → (job (envs m)).outcome = .ok ()) :
    TickEvent.tickStart n ∈ runLoop envs k := by
  have h := scheduler_reaches_tick envs n 0 k hk fun m hm => by
    simpa using hok m hm
  simpa using h

/-- C9 amended witness: with all ticks succeeding, tick 3 fires in a
five-tick run. -/
theorem scheduler_fires_future_ticks_witness :
    TickEvent.tickStart 3 ∈ runLoop envsOkAll 5 :=
  scheduler_fires_future_ticks envsOkAll 3 5 (by decide) fun m _ => rfl
